import Mathlib

/-!
Verification of the cv_factory dataset-construction core.

The development shallowly embeds the three programs that build the training
corpus:

* `data_loader/detector_loader.py` — the real-data dataset builder
  (`build_yolo_dataset` with helpers `_parse_labelme_json`, `_parse_yolo_txt`);
* `tools/combat_unit_synthesizer.py` — the free-placement scene generator
  (`calculate_iou`, the placement-attempt loop of `_generate_single_scene`,
  and the write loop of `run`);
* `tools/inventory_synthesizer.py` — the fixed-grid scene generator
  (`overlay_image_alpha` and the per-cell loop of `main`).

Machine floats are embedded as rationals (the arithmetic is exact), Python
integers as `Int`, label strings as `String`.  Randomness is embedded by
passing the drawn values (positions, uniform draws, scale and jitter values)
as explicit arguments, so every function is a pure function of its inputs.
-/

/-- Python `str.strip()` on the label and line strings: remove leading and
trailing whitespace.  (Defined over the character list so that concrete
instances reduce by `decide`.) -/
def pyStrip (s : String) : String :=
  String.mk (((s.data.dropWhile Char.isWhitespace).reverse.dropWhile
      Char.isWhitespace).reverse)

/-- Canonical YOLO label: class id plus normalized center/size, the tuple
interpolated into the `f"{class_id} {cx:.6f} {cy:.6f} {w:.6f} {h:.6f}"`
strings of all three writers. -/
structure YoloLabel where
  cls : Int
  cx : Rat
  cy : Rat
  w : Rat
  h : Rat
deriving DecidableEq, Repr

/-- One line of an output label file: either a line passed through verbatim
from a box-text sidecar, or a normalized box produced from a polygon-json
shape. -/
inductive LabelLine
  | raw (s : String)
  | box (l : YoloLabel)
deriving DecidableEq, Repr

/-- Embeds `_parse_yolo_txt` (detector_loader.py lines 42-47): keep the
stripped form of every line whose stripped form is non-empty. -/
def parse_yolo_txt (lines : List String) : List String :=
  lines.filterMap (fun line =>
    if pyStrip line = "" then none else some (pyStrip line))

/-- One LabelMe shape record: a label string and a polygon point list. -/
structure Shape where
  label : String
  points : List (Rat × Rat)
deriving DecidableEq, Repr

/-- Minimum of the x coordinates of a point list (`points.min(axis=0)`,
first component). -/
def ptsXmin : List (Rat × Rat) → Rat
  | [] => 0
  | p :: ps => ps.foldl (fun m q => min m q.1) p.1

/-- Minimum of the y coordinates of a point list. -/
def ptsYmin : List (Rat × Rat) → Rat
  | [] => 0
  | p :: ps => ps.foldl (fun m q => min m q.2) p.2

/-- Maximum of the x coordinates of a point list. -/
def ptsXmax : List (Rat × Rat) → Rat
  | [] => 0
  | p :: ps => ps.foldl (fun m q => max m q.1) p.1

/-- Maximum of the y coordinates of a point list. -/
def ptsYmax : List (Rat × Rat) → Rat
  | [] => 0
  | p :: ps => ps.foldl (fun m q => max m q.2) p.2

/-- Normalization of an axis-aligned box, exactly the four formulas of
`_parse_labelme_json` (detector_loader.py lines 34-37). -/
def normalizeLabel (cid : Int) (imgW imgH xmin ymin xmax ymax : Rat) :
    YoloLabel :=
  { cls := cid
    cx := (xmin + xmax) / 2 / imgW
    cy := (ymin + ymax) / 2 / imgH
    w := (xmax - xmin) / imgW
    h := (ymax - ymin) / imgH }

/-- The class map `CLASS_TO_ID`, name-to-id association list. -/
abbrev ClassMap := List (String × Int)

/-- Embeds the per-shape body of `_parse_labelme_json` (lines 24-39): strip
the label, drop the shape when the stripped label is absent from the class
map, otherwise emit the normalized min/max box of the polygon points. -/
def shapeStep (cm : ClassMap) (imgH imgW : Rat) (s : Shape) :
    Option YoloLabel :=
  match cm.lookup (pyStrip s.label) with
  | none => none
  | some cid =>
      some (normalizeLabel cid imgW imgH (ptsXmin s.points) (ptsYmin s.points)
        (ptsXmax s.points) (ptsYmax s.points))

/-- Embeds `_parse_labelme_json` over the whole shape list. -/
def parse_labelme_json (cm : ClassMap) (imgH imgW : Rat)
    (shapes : List Shape) : List YoloLabel :=
  shapes.filterMap (shapeStep cm imgH imgW)

/-- One source image of the real-data path together with the observable
facts the builder branches on: whether a `.txt` sidecar exists (and its
lines), whether a `.json` sidecar exists, whether reading the image and its
JSON succeeds (`readOk` is false on a corrupt image, malformed JSON or an
unreadable sidecar — the exception caught at detector_loader.py line 112),
and the recorded image size and shapes on success. -/
structure SourceFile where
  stem : String
  hasTxt : Bool
  txtLines : List String
  hasJson : Bool
  readOk : Bool
  imgW : Rat
  imgH : Rat
  shapes : List Shape
deriving DecidableEq, Repr

/-- The sidecar-selection logic of `build_yolo_dataset` (lines 100-114):
box-text when `.txt` exists, otherwise polygon-json when `.json` exists
(empty on a read failure, which `continue`s with nothing parsed), otherwise
no labels. -/
def selectedLabels (cm : ClassMap) (f : SourceFile) : List LabelLine :=
  if f.hasTxt then (parse_yolo_txt f.txtLines).map LabelLine.raw
  else if f.hasJson then
    if f.readOk then
      (parse_labelme_json cm f.imgH f.imgW f.shapes).map LabelLine.box
    else []
  else []

/-- Observable per-file effect of the loop body of `build_yolo_dataset`
(lines 97-119): the image is copied first (line 98, unconditionally), and a
label file is written only when the selected label list is non-empty (the
`if yolo_labels:` guard at line 116).  First component: image copied;
second: the label file content, `none` when no label file was written. -/
def processFile (cm : ClassMap) (f : SourceFile) :
    Bool × Option (List LabelLine) :=
  (true,
    if (selectedLabels cm f).isEmpty then none else some (selectedLabels cm f))

/-- The warnings printed for one file by `build_yolo_dataset`: the only
warning in the loop is the read-failure message of line 113, emitted in the
polygon-json branch when reading fails. -/
def fileWarnings (f : SourceFile) : List String :=
  if f.hasTxt then []
  else if f.hasJson then
    if f.readOk then [] else ["read failure: " ++ f.stem]
  else []

/-- Warnings printed while processing a batch of files, in order. -/
def batchWarnings (fs : List SourceFile) : List String :=
  fs.foldr (fun f acc => fileWarnings f ++ acc) []

/-- Files written for one item of the real-data path: the image copy
(always) and the label file when one is written. -/
def realItemFiles (cm : ClassMap) (f : SourceFile) : List String :=
  [f.stem ++ ".png"] ++
    (match (processFile cm f).2 with
     | none => []
     | some _ => [f.stem ++ ".txt"])

/-- The per-split loop of `build_yolo_dataset` over a batch of files:
stem of each file together with its observable per-file effect. -/
def processBatch (cm : ClassMap) (fs : List SourceFile) :
    List (String × Bool × Option (List LabelLine)) :=
  fs.map (fun f => (f.stem, processFile cm f))

/-- Files written per scene by `CombatUnitSynthesizer.run`
(combat_unit_synthesizer.py lines 159-162): the image always, the label
file only under the `if labels:` guard. -/
def freeSceneFiles (stem : String) (labels : List YoloLabel) : List String :=
  [stem ++ ".png"] ++ (if labels.isEmpty then [] else [stem ++ ".txt"])

/-- Files written per scene by the grid synthesizer `main`
(inventory_synthesizer.py lines 171-173): the image and the label file,
unconditionally. -/
def gridSceneFiles (stem : String) (_labels : List YoloLabel) : List String :=
  [stem ++ ".jpg", stem ++ ".txt"]

/-- Pixel box `[x1, y1, x2, y2]` as used by `_generate_single_scene`
(`new_box = [x, y, x + asset_w, y + asset_h]`). -/
structure Box where
  x1 : Int
  y1 : Int
  x2 : Int
  y2 : Int
deriving DecidableEq, Repr

/-- Intersection area of two boxes, the `inter_area` computation of
`calculate_iou` (combat_unit_synthesizer.py lines 38-42). -/
def interArea (a b : Box) : Int :=
  max 0 (min a.x2 b.x2 - max a.x1 b.x1) * max 0 (min a.y2 b.y2 - max a.y1 b.y1)

/-- Area of one box. -/
def boxArea (a : Box) : Int := (a.x2 - a.x1) * (a.y2 - a.y1)

/-- Embeds `calculate_iou` (lines 37-47), including the early `return 0.0`
when the intersection area is zero. -/
def calculate_iou (a b : Box) : Rat :=
  let inter := interArea a b
  if inter = 0 then 0
  else (inter : Rat) / ((boxArea a : Rat) + (boxArea b : Rat) - (inter : Rat))

/-- The collision test of `_generate_single_scene` line 131:
`any(calculate_iou(new_box, placed_box) > threshold for placed_box in
placed_boxes)`. -/
def isColliding (thr : Rat) (placed : List Box) (candidate : Box) : Bool :=
  placed.any (fun b => thr < calculate_iou candidate b)

/-- The attempt loop of `_generate_single_scene` lines 127-140 for one unit:
`cands` is the stream of candidate boxes built from the sampled positions
(at most `MAX_PLACEMENT_ATTEMPTS` of them); the first non-colliding
candidate is accepted, exhaustion yields `none` (the instance is dropped
with no effect). -/
def tryPlace (thr : Rat) (placed : List Box) : List Box → Option Box
  | [] => none
  | c :: cs => if isColliding thr placed c then tryPlace thr placed cs
               else some c

/-- The outer unit loop of `_generate_single_scene`: one candidate stream
per unit, the accepted boxes accumulated in placement order. -/
def placeUnits (thr : Rat) : List (List Box) → List Box → List Box
  | [], placed => placed
  | cands :: rest, placed =>
      match tryPlace thr placed cands with
      | none => placeUnits thr rest placed
      | some c => placeUnits thr rest (placed ++ [c])

/-- The label emitted for one accepted free placement
(combat_unit_synthesizer.py lines 136-139): center and size of the asset
box normalized by the background size. -/
def freeLabel (W H aw ah x y : Rat) (cid : Int) : YoloLabel :=
  { cls := cid
    cx := (x + aw / 2) / W
    cy := (y + ah / 2) / H
    w := aw / W
    h := ah / H }

/-- Denormalization of a label with the owning image's dimensions: the
corners `(xmin, ymin, xmax, ymax)` of the recovered pixel box. -/
def denormBox (W H : Rat) (l : YoloLabel) : Rat × Rat × Rat × Rat :=
  (l.cx * W - l.w * W / 2, l.cy * H - l.h * H / 2,
   l.cx * W + l.w * W / 2, l.cy * H + l.h * H / 2)

/-- Outcome drawn for one grid cell. -/
inductive CellOutcome
  | empty
  | distractor
  | valid
deriving DecidableEq, Repr

/-- Top-left x of grid cell column `c`
(inventory_synthesizer.py line 141). -/
def gridCellX (startX gapX cw c : Int) : Int := startX + c * (cw + gapX)

/-- Top-left y of grid cell row `r` (line 142). -/
def gridCellY (startY gapY ch r : Int) : Int := startY + r * (ch + gapY)

/-- The label emitted for a valid grid cell (inventory_synthesizer.py lines
160-167): box fixed at 90 percent of the cell, centered on the cell,
normalized by the background size. -/
def gridLabel (wbg hbg x y cw ch : Rat) (cid : Int) : YoloLabel :=
  { cls := cid
    cx := (x + cw / 2) / wbg
    cy := (y + ch / 2) / hbg
    w := cw * (9 / 10) / wbg
    h := ch * (9 / 10) / hbg }

/-- Embeds the accept/decline decision of `overlay_image_alpha`
(inventory_synthesizer.py lines 38-64): scale the cell size by the drawn
`scale`, shrink the larger dimension to preserve the source aspect ratio
(integer truncation as in Python `int`), decline when the resize would get
a zero dimension (the `except: return img` of lines 51-54), center in the
cell with the drawn jitter (Python floor division), and decline when the
scaled asset extends past the image bounds (line 64).  `true` means the
asset is actually composited. -/
def overlayAccepts (imgH imgW hSrc wSrc x y w h : Int) (scale : Rat)
    (jx jy : Int) : Bool :=
  let nw0 : Int := ⌊(w : Rat) * scale⌋
  let nh0 : Int := ⌊(h : Rat) * scale⌋
  let aspect : Rat := (wSrc : Rat) / (hSrc : Rat)
  let nw : Int := if aspect < (nw0 : Rat) / (nh0 : Rat)
                  then ⌊(nh0 : Rat) * aspect⌋ else nw0
  let nh : Int := if aspect < (nw0 : Rat) / (nh0 : Rat)
                  then nh0 else ⌊(nw0 : Rat) / aspect⌋
  if nw ≤ 0 ∨ nh ≤ 0 then false
  else
    let x1 := x + (w - nw).fdiv 2 + jx
    let y1 := y + (h - nh).fdiv 2 + jy
    decide (0 ≤ y1) && decide (y1 + nh ≤ imgH) &&
      decide (0 ≤ x1) && decide (x1 + nw ≤ imgW)

/-- Embeds the per-cell decision of the grid synthesizer `main`
(inventory_synthesizer.py lines 135-167): one uniform draw `r`; `r <
prob_empty` leaves the cell empty; otherwise `r < prob_empty +
prob_distractor` with a non-empty distractor list composites a distractor
and emits no label; every remaining case composites a valid asset and
appends its label — unconditionally, whether or not the compositing helper
accepted (`accepts` is the result of `overlayAccepts` for this cell).
Result: drawn outcome, whether an asset was actually composited, and the
updated label list. -/
def gridCellProcess (pe pd : Rat) (hasDistractors : Bool) (r : Rat)
    (accepts : Bool) (labels : List YoloLabel) (lab : YoloLabel) :
    CellOutcome × Bool × List YoloLabel :=
  if r < pe then (CellOutcome.empty, false, labels)
  else if r < pe + pd ∧ hasDistractors = true then
    (CellOutcome.distractor, accepts, labels)
  else (CellOutcome.valid, accepts, labels ++ [lab])

/-- Modelled from the spec: the per-cell outcome as the claim describes it —
three contiguous probability bands `probEmpty`, `probDistractor`,
`probValid`, with all remaining probability mass leaving the cell empty.
Stated only for comparison with `gridCellProcess`. -/
def cellOutcomeSpec (pe pd pv r : Rat) : CellOutcome :=
  if r < pe then CellOutcome.empty
  else if r < pe + pd then CellOutcome.distractor
  else if r < pe + pd + pv then CellOutcome.valid
  else CellOutcome.empty

/-- A linear congruential pseudo-random step (glibc multiplier), driving the
seeded shuffle of the splitter model. -/
def lcg (s : Nat) : Nat := (s * 1103515245 + 12345) % 2147483648

/-- Modelled from the spec: the dataset splitter.  The repository realizes
`DatasetSplitter.split` by calling sklearn's `train_test_split` with
`random_state=42` (detector_loader.py line 93), whose implementation is
outside the repository; the spec describes it as a deterministic, seeded
pseudo-random partition.  This models its shuffle as a seeded Fisher-Yates
draw: repeatedly pick the element at a pseudo-random index and recurse on
the remainder. -/
def seededShuffle {α : Type} : Nat → List α → List α
  | _, [] => []
  | s, x :: xs =>
      let l := x :: xs
      let j := lcg s % l.length
      l.get ⟨j, Nat.mod_lt _ (Nat.succ_pos xs.length)⟩ ::
        seededShuffle (lcg s) (l.eraseIdx j)
termination_by _ l => l.length
decreasing_by
  simp only [List.length_eraseIdx]
  split
  · omega
  · rename_i hcon
    exact absurd (Nat.mod_lt _ (Nat.succ_pos xs.length)) hcon

/-- Modelled from the spec: `split(files, valRatio, seed)` — shuffle with
the seed, take `ceil(valRatio * n)` files as the validation set (the
validation-count rule of sklearn for a fractional `test_size`), the rest as
the training set.  Returns `(trainFiles, valFiles)`. -/
def splitFiles {α : Type} (seed : Nat) (valFrac : Rat) (files : List α) :
    List α × List α :=
  let shuffled := seededShuffle seed files
  let nVal := (⌈valFrac * (files.length : Rat)⌉).toNat
  (shuffled.drop nVal, shuffled.take nVal)

/-! ## Helper lemmas -/

/-- Commutativity of the intersection area. -/
theorem interArea_comm (a b : Box) : interArea a b = interArea b a := by
  unfold interArea
  rw [min_comm a.x2, max_comm a.x1, min_comm a.y2, max_comm a.y1]

/-- Commutativity of `calculate_iou`. -/
theorem calculate_iou_comm (a b : Box) :
    calculate_iou a b = calculate_iou b a := by
  simp only [calculate_iou]
  rw [interArea_comm a b, add_comm ((boxArea a : Rat))]

/-- A candidate that passes the collision test has IOU at most the
threshold against every already-placed box. -/
theorem isColliding_false {thr : Rat} {placed : List Box} {c : Box}
    (h : isColliding thr placed c = false) :
    ∀ b ∈ placed, calculate_iou c b ≤ thr := by
  intro b hb
  simp only [isColliding, List.any_eq_false, decide_eq_true_eq] at h
  exact le_of_not_lt (h b hb)

/-- A box accepted by the attempt loop has IOU at most the threshold
against every already-placed box. -/
theorem tryPlace_sound {thr : Rat} {placed : List Box} :
    ∀ {cands : List Box} {c : Box}, tryPlace thr placed cands = some c →
      ∀ b ∈ placed, calculate_iou c b ≤ thr := by
  intro cands
  induction cands with
  | nil => intro c h; simp [tryPlace] at h
  | cons d ds ih =>
      intro c h
      cases hc : isColliding thr placed d with
      | true => rw [tryPlace, if_pos hc] at h; exact ih h
      | false =>
          rw [tryPlace, if_neg (by simp [hc])] at h
          cases h
          exact isColliding_false hc

/-- The placement loop preserves the pairwise-IOU invariant. -/
theorem placeUnits_pairwise (thr : Rat) :
    ∀ (attempts : List (List Box)) (placed : List Box),
      placed.Pairwise (fun a b => calculate_iou a b ≤ thr) →
      (placeUnits thr attempts placed).Pairwise
        (fun a b => calculate_iou a b ≤ thr) := by
  intro attempts
  induction attempts with
  | nil => intro placed h; simpa [placeUnits] using h
  | cons cands rest ih =>
      intro placed h
      cases htp : tryPlace thr placed cands with
      | none => simpa [placeUnits, htp] using ih placed h
      | some c =>
          have hstep : placeUnits thr (cands :: rest) placed =
              placeUnits thr rest (placed ++ [c]) := by
            simp [placeUnits, htp]
          rw [hstep]
          apply ih
          rw [List.pairwise_append]
          refine ⟨h, by simp, ?_⟩
          intro a ha b hb
          simp only [List.mem_singleton] at hb
          subst hb
          have := tryPlace_sound htp a ha
          rwa [calculate_iou_comm]

/-- C2, counterexample: the collision test of `_generate_single_scene`
rejects a candidate only when its IOU is strictly greater than the
threshold, so a pair of placed instances can meet the threshold exactly.
With threshold 1/3, the boxes (0,0)-(2,1) and (1,0)-(3,1) have IOU exactly
1/3 and are both placed in one scene, refuting strictly-below. -/
theorem placementOverlap_cex :
    placeUnits (1/3) [[Box.mk 0 0 2 1], [Box.mk 1 0 3 1]] [] =
      [Box.mk 0 0 2 1, Box.mk 1 0 3 1] ∧
    ¬ calculate_iou (Box.mk 0 0 2 1) (Box.mk 1 0 3 1) < 1/3 := by
  constructor
  · norm_num [placeUnits, tryPlace, isColliding, calculate_iou, interArea,
      boxArea]
  · norm_num [calculate_iou, interArea, boxArea]

/-- C2 (amended): in every scene produced by the free-placement loop, every
pair of placed instances has IOU at most (not strictly below) the
configured overlap threshold — the collision test only rejects IOU strictly
greater than the threshold — and a unit whose candidate stream is exhausted
without a non-colliding position is dropped silently, leaving the placed
list unchanged. -/
theorem placementOverlap_amended :
    (∀ (thr : Rat) (attempts : List (List Box)),
       (placeUnits thr attempts []).Pairwise
         (fun a b => calculate_iou a b ≤ thr)) ∧
    (∀ (thr : Rat) (cands : List Box) (rest : List (List Box))
       (placed : List Box), tryPlace thr placed cands = none →
       placeUnits thr (cands :: rest) placed = placeUnits thr rest placed) := by
  constructor
  · intro thr attempts
    exact placeUnits_pairwise thr attempts [] (by simp)
  · intro thr cands rest placed h
    simp [placeUnits, h]

/-- C2 (amended), witness: with threshold 0 and a candidate identical to an
already-placed box (IOU 1 greater than 0), the attempt stream is exhausted and
the unit is dropped with the placed list unchanged. -/
theorem placementOverlap_amended_wit :
    tryPlace 0 [Box.mk 0 0 1 1] [Box.mk 0 0 1 1] = none ∧
    placeUnits 0 [[Box.mk 0 0 1 1]] [Box.mk 0 0 1 1] =
      placeUnits 0 [] [Box.mk 0 0 1 1] := by
  have h : tryPlace 0 [Box.mk 0 0 1 1] [Box.mk 0 0 1 1] = none := by
    norm_num [tryPlace, isColliding, calculate_iou, interArea, boxArea]
  exact ⟨h, placementOverlap_amended.2 0 [Box.mk 0 0 1 1] []
    [Box.mk 0 0 1 1] h⟩

/-- C1, counterexample: the free-placement writer and the real-data builder
write a label file only when the label list is non-empty, so an item with
an empty label list has an image file and no label file, breaking the 1:1
correspondence; only the grid writer always writes the label file. -/
theorem labelFilePolicy_cex :
    freeSceneFiles "synth_unit_000000" [] = ["synth_unit_000000.png"] ∧
    (processFile []
      { stem := "img0", hasTxt := false, txtLines := [], hasJson := false,
        readOk := true, imgW := 1, imgH := 1, shapes := [] }).2 = none ∧
    realItemFiles []
      { stem := "img0", hasTxt := false, txtLines := [], hasJson := false,
        readOk := true, imgW := 1, imgH := 1, shapes := [] } = ["img0.png"] ∧
    gridSceneFiles "syn_00000" [] = ["syn_00000.jpg", "syn_00000.txt"] :=
  ⟨rfl, rfl, rfl, rfl⟩

/-- C1 (amended): only the grid path writes a label file unconditionally;
the real-data path and the free-placement path write a label file exactly
when the item's label list is non-empty, so for those two paths an item
with an empty label list has an image file with no label file alongside
it. -/
theorem labelFilePolicy_amended :
    ∀ (stem : String) (labels : List YoloLabel) (cm : ClassMap)
      (f : SourceFile),
      gridSceneFiles stem labels = [stem ++ ".jpg", stem ++ ".txt"] ∧
      (labels = [] → freeSceneFiles stem labels = [stem ++ ".png"]) ∧
      (labels ≠ [] →
        freeSceneFiles stem labels = [stem ++ ".png", stem ++ ".txt"]) ∧
      ((processFile cm f).2 = none ↔ selectedLabels cm f = []) := by
  intro stem labels cm f
  refine ⟨rfl, ?_, ?_, ?_⟩
  · intro h; subst h; rfl
  · intro h
    simp [freeSceneFiles, h]
  · cases hl : selectedLabels cm f with
    | nil => simp [processFile, hl]
    | cons a as => simp [processFile, hl]

/-- C1 (amended), witness: instantiated at an empty and a one-element label
list. -/
theorem labelFilePolicy_amended_wit :
    freeSceneFiles "s" [] = ["s.png"] ∧
    freeSceneFiles "s" [YoloLabel.mk 0 0 0 0 0] = ["s.png", "s.txt"] :=
  ⟨(labelFilePolicy_amended "s" [] []
      { stem := "s", hasTxt := false, txtLines := [], hasJson := false,
        readOk := true, imgW := 1, imgH := 1, shapes := [] }).2.1 rfl,
   (labelFilePolicy_amended "s" [YoloLabel.mk 0 0 0 0 0] []
      { stem := "s", hasTxt := false, txtLines := [], hasJson := false,
        readOk := true, imgW := 1, imgH := 1, shapes := [] }).2.2.1
     (by simp)⟩

/-- C6, counterexample: the builder copies the image (line 98) before it
attempts to read it for the polygon-json branch, so a file whose read fails
still leaves its image copy in the output dataset — the output for that
file is partially written. -/
theorem readFailure_cex :
    (processFile []
      { stem := "broken", hasTxt := false, txtLines := [], hasJson := true,
        readOk := false, imgW := 0, imgH := 0, shapes := [] }).1 = true ∧
    realItemFiles []
      { stem := "broken", hasTxt := false, txtLines := [], hasJson := true,
        readOk := false, imgW := 0, imgH := 0, shapes := [] } =
      ["broken.png"] :=
  ⟨rfl, rfl⟩

/-- C6 (amended): on a read failure in the polygon-json branch the builder
skips the rest of the processing for that single file and continues the
batch — no label file is written for it — but the image copy, made before
the read attempt, remains in the output, so the output for the failed file
is partially written (image without label file). -/
theorem readFailure_amended :
    ∀ (cm : ClassMap) (f : SourceFile) (rest : List SourceFile),
      f.hasTxt = false → f.hasJson = true → f.readOk = false →
      processFile cm f = (true, none) ∧
      realItemFiles cm f = [f.stem ++ ".png"] ∧
      processBatch cm (f :: rest) =
        (f.stem, processFile cm f) :: processBatch cm rest := by
  intro cm f rest ht hj hr
  have hsel : selectedLabels cm f = [] := by
    simp [selectedLabels, ht, hj, hr]
  refine ⟨?_, ?_, rfl⟩
  · simp [processFile, hsel]
  · simp [realItemFiles, processFile, hsel]

/-- C6 (amended), witness. -/
theorem readFailure_amended_wit :
    processFile []
      { stem := "broken", hasTxt := false, txtLines := [], hasJson := true,
        readOk := false, imgW := 0, imgH := 0, shapes := [] } =
      (true, none) :=
  (readFailure_amended []
    { stem := "broken", hasTxt := false, txtLines := [], hasJson := true,
      readOk := false, imgW := 0, imgH := 0, shapes := [] } [] rfl rfl rfl).1

/-- C7: when a box-text sidecar exists, the output labels are exactly the
non-empty stripped lines of the box-text file, regardless of any
polygon-json sidecar (two files agreeing on the box-text fields produce
identical output, whatever their polygon-json fields); polygon-json is
parsed only when no box-text sidecar exists. -/
theorem boxTextPriority_thm :
    (∀ (cm : ClassMap) (f : SourceFile), f.hasTxt = true →
       selectedLabels cm f = (parse_yolo_txt f.txtLines).map LabelLine.raw) ∧
    (∀ (cm : ClassMap) (f g : SourceFile), f.hasTxt = true →
       g.hasTxt = true → g.txtLines = f.txtLines →
       processFile cm g = processFile cm f) ∧
    (∀ (cm : ClassMap) (f : SourceFile), f.hasTxt = false →
       f.hasJson = true → f.readOk = true →
       selectedLabels cm f =
         (parse_labelme_json cm f.imgH f.imgW f.shapes).map LabelLine.box) := by
  refine ⟨?_, ?_, ?_⟩
  · intro cm f ht
    simp [selectedLabels, ht]
  · intro cm f g ht hg htxt
    simp [processFile, selectedLabels, ht, hg, htxt]
  · intro cm f ht hj hr
    simp [selectedLabels, ht, hj, hr]

/-- C7, witness: a file carrying both a box-text sidecar and a polygon-json
sidecar (whose only shape would be dropped anyway) yields exactly the
stripped box-text lines. -/
theorem boxTextPriority_thm_wit :
    selectedLabels [("cat", 0)]
      { stem := "both", hasTxt := true,
        txtLines := ["0 0.5 0.5 0.1 0.1", "  "], hasJson := true,
        readOk := true, imgW := 800, imgH := 600,
        shapes := [{ label := "cat", points := [(0, 0), (10, 10)] }] } =
      [LabelLine.raw "0 0.5 0.5 0.1 0.1"] :=
  (boxTextPriority_thm.1 [("cat", 0)]
    { stem := "both", hasTxt := true,
      txtLines := ["0 0.5 0.5 0.1 0.1", "  "], hasJson := true,
      readOk := true, imgW := 800, imgH := 600,
      shapes := [{ label := "cat", points := [(0, 0), (10, 10)] }] }
    rfl).trans (by decide)

/-- C3, counterexample: two images whose polygon-json sidecars reference
the unknown label "unknown_xyz" produce empty label lists (the shapes are
dropped), but the builder surfaces no warning at all — there is no
unmatched-labels set and no aggregated warning in the code, so the claimed
warning containing "unknown_xyz" never appears. -/
theorem unmatchedLabels_cex :
    batchWarnings
      [{ stem := "a", hasTxt := false, txtLines := [], hasJson := true,
         readOk := true, imgW := 800, imgH := 600,
         shapes := [{ label := "unknown_xyz", points := [(0, 0), (10, 10)] }] },
       { stem := "b", hasTxt := false, txtLines := [], hasJson := true,
         readOk := true, imgW := 800, imgH := 600,
         shapes := [{ label := "unknown_xyz", points := [(0, 0), (10, 10)] }] }]
      = [] ∧
    selectedLabels [("cat", 0)]
      { stem := "a", hasTxt := false, txtLines := [], hasJson := true,
        readOk := true, imgW := 800, imgH := 600,
        shapes := [{ label := "unknown_xyz", points := [(0, 0), (10, 10)] }] }
      = [] := by
  constructor
  · rfl
  · decide

/-- C3 (amended): a polygon-json shape whose stripped label is absent from
the class map is dropped silently and without error; the builder maintains
no unmatched-labels set and surfaces no warning for unknown labels — its
only per-file warning is the read-failure message, so a batch in which
every read succeeds emits no warnings at all, however many unknown labels
it contains; processing simply continues. -/
theorem unmatchedLabels_amended :
    (∀ (cm : ClassMap) (imgH imgW : Rat) (s : Shape),
       cm.lookup (pyStrip s.label) = none → shapeStep cm imgH imgW s = none) ∧
    (∀ fs : List SourceFile, (∀ f ∈ fs, f.readOk = true) →
       batchWarnings fs = []) := by
  constructor
  · intro cm imgH imgW s h
    simp [shapeStep, h]
  · intro fs
    induction fs with
    | nil => intro _; rfl
    | cons f rest ih =>
        intro h
        have hf : fileWarnings f = [] := by
          have := h f (by simp)
          cases ht : f.hasTxt <;> cases hj : f.hasJson <;>
            simp [fileWarnings, ht, hj, this]
        simp only [batchWarnings, List.foldr_cons, hf, List.nil_append]
        exact ih (fun g hg => h g (by simp [hg]))

/-- C3 (amended), witness: the "unknown_xyz" shape is dropped and a batch
of one successfully-read file referencing it warns nothing. -/
theorem unmatchedLabels_amended_wit :
    shapeStep [("cat", 0)] 600 800
      { label := "unknown_xyz", points := [(0, 0), (10, 10)] } = none ∧
    batchWarnings
      [{ stem := "a", hasTxt := false, txtLines := [], hasJson := true,
         readOk := true, imgW := 800, imgH := 600,
         shapes := [{ label := "unknown_xyz", points := [(0, 0), (10, 10)] }] }]
      = [] :=
  ⟨unmatchedLabels_amended.1 [("cat", 0)] 600 800
     { label := "unknown_xyz", points := [(0, 0), (10, 10)] } (by decide),
   unmatchedLabels_amended.2
     [{ stem := "a", hasTxt := false, txtLines := [], hasJson := true,
        readOk := true, imgW := 800, imgH := 600,
        shapes := [{ label := "unknown_xyz", points := [(0, 0), (10, 10)] }] }]
     (by simp)⟩

/-- C4, counterexample: with probabilities (0.3, 0.2, 0.4) summing to 0.9
and draw r = 0.95, the claim says the remaining mass leaves the cell empty,
but the per-cell `else` branch of the code composites a valid asset and
emits a label; likewise a draw in the distractor band with no distractors
loaded falls through to the valid branch instead of placing a
distractor. -/
theorem gridOutcome_cex :
    (gridCellProcess (3/10) (2/10) true (19/20) false []
      (YoloLabel.mk 0 0 0 0 0)).1 = CellOutcome.valid ∧
    cellOutcomeSpec (3/10) (2/10) (4/10) (19/20) = CellOutcome.empty ∧
    (gridCellProcess (3/10) (2/10) false (4/10) false []
      (YoloLabel.mk 0 0 0 0 0)).1 = CellOutcome.valid ∧
    cellOutcomeSpec (3/10) (2/10) (1/2) (4/10) = CellOutcome.distractor := by
  refine ⟨?_, ?_, ?_, ?_⟩ <;>
    norm_num [gridCellProcess, cellOutcomeSpec]

/-- C4 (amended): one uniform draw r decides each cell: r below probEmpty
leaves the cell empty with no label; otherwise r below probEmpty +
probDistractor with at least one distractor loaded composites a distractor
with no label; every remaining draw — including all mass above probEmpty +
probDistractor and the distractor band when no distractors are loaded —
composites a valid asset and emits one label.  probValid is never
consulted and no remaining probability mass is left empty. -/
theorem gridOutcome_amended :
    ∀ (pe pd : Rat) (hasD : Bool) (r : Rat) (accepts : Bool)
      (labels : List YoloLabel) (lab : YoloLabel),
      (r < pe → gridCellProcess pe pd hasD r accepts labels lab =
        (CellOutcome.empty, false, labels)) ∧
      (¬ r < pe → r < pe + pd → hasD = true →
        gridCellProcess pe pd hasD r accepts labels lab =
          (CellOutcome.distractor, accepts, labels)) ∧
      (¬ r < pe → ¬ (r < pe + pd ∧ hasD = true) →
        gridCellProcess pe pd hasD r accepts labels lab =
          (CellOutcome.valid, accepts, labels ++ [lab])) := by
  intro pe pd hasD r accepts labels lab
  refine ⟨?_, ?_, ?_⟩
  · intro h
    simp [gridCellProcess, h]
  · intro h1 h2 h3
    simp [gridCellProcess, h1, h2, h3]
  · intro h1 h2
    simp [gridCellProcess, h1, h2]

/-- C4 (amended), witness: the three branches at the source configuration
probEmpty = 0.3, probDistractor = 0.2 with distractors loaded. -/
theorem gridOutcome_amended_wit :
    gridCellProcess (3/10) (2/10) true (1/10) true []
      (YoloLabel.mk 0 0 0 0 0) = (CellOutcome.empty, false, []) ∧
    gridCellProcess (3/10) (2/10) true (4/10) true []
      (YoloLabel.mk 0 0 0 0 0) = (CellOutcome.distractor, true, []) ∧
    gridCellProcess (3/10) (2/10) true (7/10) true []
      (YoloLabel.mk 0 0 0 0 0) =
      (CellOutcome.valid, true, [YoloLabel.mk 0 0 0 0 0]) :=
  ⟨(gridOutcome_amended (3/10) (2/10) true (1/10) true []
      (YoloLabel.mk 0 0 0 0 0)).1 (by norm_num),
   (gridOutcome_amended (3/10) (2/10) true (4/10) true []
      (YoloLabel.mk 0 0 0 0 0)).2.1 (by norm_num) (by norm_num) rfl,
   (gridOutcome_amended (3/10) (2/10) true (7/10) true []
      (YoloLabel.mk 0 0 0 0 0)).2.2 (by norm_num) (by norm_num)⟩

/-- C10: once the valid branch is drawn, the cell's label is appended
whatever the compositing helper decided — in particular with the source
grid (cell at x = 384 of width 53) on a 400x300 background the helper
declines the paste (the scaled asset would cross the right image edge),
and the label is appended nonetheless. -/
theorem gridLabelUnconditional_thm :
    (∀ (pe pd : Rat) (hasD : Bool) (r : Rat)
       (imgH imgW hSrc wSrc x y w h : Int) (scale : Rat) (jx jy : Int)
       (labels : List YoloLabel) (lab : YoloLabel),
       ¬ r < pe → ¬ (r < pe + pd ∧ hasD = true) →
       (gridCellProcess pe pd hasD r
          (overlayAccepts imgH imgW hSrc wSrc x y w h scale jx jy)
          labels lab).2.2 = labels ++ [lab]) ∧
    overlayAccepts 300 400 53 53 (gridCellX 384 2 53 0) (gridCellY 187 2 53 0)
      53 53 (9/10) 0 0 = false := by
  constructor
  · intro pe pd hasD r imgH imgW hSrc wSrc x y w h scale jx jy labels lab h1 h2
    simp [gridCellProcess, h1, h2]
  · norm_num [overlayAccepts, gridCellX, gridCellY, Int.fdiv]

/-- C10, witness: the label of the declined cell above is still emitted. -/
theorem gridLabelUnconditional_thm_wit :
    (gridCellProcess (3/10) (2/10) true (7/10)
      (overlayAccepts 300 400 53 53 (gridCellX 384 2 53 0)
        (gridCellY 187 2 53 0) 53 53 (9/10) 0 0)
      [] (YoloLabel.mk 0 0 0 0 0)).2.2 = [YoloLabel.mk 0 0 0 0 0] :=
  gridLabelUnconditional_thm.1 (3/10) (2/10) true (7/10) 300 400 53 53
    (gridCellX 384 2 53 0) (gridCellY 187 2 53 0) 53 53 (9/10) 0 0 []
    (YoloLabel.mk 0 0 0 0 0) (by norm_num) (by norm_num)

/-- C5, counterexample: the grid path computes labels from the configured
grid coordinates with no check against the image size — with the source
grid (first cell at x = 384, width 53) on a 400-wide background the label
center cx = 821/800 exceeds 1; and in the free path an asset spanning the
full background width yields w = 1, not strictly below 1. -/
theorem labelBounds_cex :
    ¬ (gridLabel 400 300 ((gridCellX 384 2 53 0 : Int) : Rat)
        ((gridCellY 187 2 53 0 : Int) : Rat) 53 53 0).cx < 1 ∧
    ¬ (freeLabel 800 600 800 100 0 250 0).w < 1 := by
  constructor
  · norm_num [gridLabel, gridCellX, gridCellY]
  · norm_num [freeLabel]

/-- C5 (amended): a free-placement label from an asset placed fully inside
the background has 0 < cx, cy < 1 and 0 < w, h ≤ 1 (w or h reaching 1
exactly when the asset spans the full dimension), and denormalizing it
recovers exactly the placed pixel box, which lies inside the image; a grid
label satisfies the strict bounds 0 < cx, cy, w, h < 1 and its denormalized
box lies inside the image only under the additional precondition that the
cell rectangle itself lies inside the image bounds. -/
theorem labelBounds_amended :
    (∀ (W H aw ah x y : Rat) (cid : Int),
       0 < aw → 0 < ah → 0 ≤ x → x + aw ≤ W → 0 ≤ y → y + ah ≤ H →
       (0 < (freeLabel W H aw ah x y cid).cx ∧
         (freeLabel W H aw ah x y cid).cx < 1) ∧
       (0 < (freeLabel W H aw ah x y cid).cy ∧
         (freeLabel W H aw ah x y cid).cy < 1) ∧
       (0 < (freeLabel W H aw ah x y cid).w ∧
         (freeLabel W H aw ah x y cid).w ≤ 1) ∧
       (0 < (freeLabel W H aw ah x y cid).h ∧
         (freeLabel W H aw ah x y cid).h ≤ 1) ∧
       denormBox W H (freeLabel W H aw ah x y cid) =
         (x, y, x + aw, y + ah)) ∧
    (∀ (wbg hbg x y cw ch : Rat) (cid : Int),
       0 < cw → 0 < ch → 0 ≤ x → x + cw ≤ wbg → 0 ≤ y → y + ch ≤ hbg →
       (0 < (gridLabel wbg hbg x y cw ch cid).cx ∧
         (gridLabel wbg hbg x y cw ch cid).cx < 1) ∧
       (0 < (gridLabel wbg hbg x y cw ch cid).cy ∧
         (gridLabel wbg hbg x y cw ch cid).cy < 1) ∧
       (0 < (gridLabel wbg hbg x y cw ch cid).w ∧
         (gridLabel wbg hbg x y cw ch cid).w < 1) ∧
       (0 < (gridLabel wbg hbg x y cw ch cid).h ∧
         (gridLabel wbg hbg x y cw ch cid).h < 1) ∧
       denormBox wbg hbg (gridLabel wbg hbg x y cw ch cid) =
         (x + cw / 20, y + ch / 20, x + cw * (19/20), y + ch * (19/20)) ∧
       0 ≤ x + cw / 20 ∧ x + cw * (19/20) ≤ wbg ∧
       0 ≤ y + ch / 20 ∧ y + ch * (19/20) ≤ hbg) := by
  constructor
  · intro W H aw ah x y cid haw hah hx hxa hy hya
    have hW : (0:Rat) < W := by linarith
    have hH : (0:Rat) < H := by linarith
    have hW0 : W ≠ 0 := ne_of_gt hW
    have hH0 : H ≠ 0 := ne_of_gt hH
    refine ⟨⟨?_, ?_⟩, ⟨?_, ?_⟩, ⟨?_, ?_⟩, ⟨?_, ?_⟩, ?_⟩
    · exact div_pos (by linarith) hW
    · exact (div_lt_one hW).2 (by linarith)
    · exact div_pos (by linarith) hH
    · exact (div_lt_one hH).2 (by linarith)
    · exact div_pos haw hW
    · exact (div_le_one hW).2 (by linarith)
    · exact div_pos hah hH
    · exact (div_le_one hH).2 (by linarith)
    · simp only [denormBox, freeLabel, Prod.mk.injEq]
      refine ⟨?_, ?_, ?_, ?_⟩ <;> (field_simp; ring)
  · intro wbg hbg x y cw ch cid hcw hch hx hxa hy hya
    have hW : (0:Rat) < wbg := by linarith
    have hH : (0:Rat) < hbg := by linarith
    have hW0 : wbg ≠ 0 := ne_of_gt hW
    have hH0 : hbg ≠ 0 := ne_of_gt hH
    refine ⟨⟨?_, ?_⟩, ⟨?_, ?_⟩, ⟨?_, ?_⟩, ⟨?_, ?_⟩, ?_, ?_, ?_, ?_, ?_⟩
    · exact div_pos (by linarith) hW
    · exact (div_lt_one hW).2 (by linarith)
    · exact div_pos (by linarith) hH
    · exact (div_lt_one hH).2 (by linarith)
    · exact div_pos (by linarith) hW
    · exact (div_lt_one hW).2 (by linarith)
    · exact div_pos (by linarith) hH
    · exact (div_lt_one hH).2 (by linarith)
    · simp only [denormBox, gridLabel, Prod.mk.injEq]
      refine ⟨?_, ?_, ?_, ?_⟩ <;> (field_simp; ring)
    · linarith
    · linarith
    · linarith
    · linarith

/-- C5 (amended), witness: a 100x100 asset at (350, 250) on an 800x600
background, and a 53x53 cell at (100, 100) on the same background. -/
theorem labelBounds_amended_wit :
    (freeLabel 800 600 100 100 350 250 0).cx < 1 ∧
    0 < (freeLabel 800 600 100 100 350 250 0).w ∧
    (gridLabel 800 600 100 100 53 53 2).cx < 1 ∧
    0 < (gridLabel 800 600 100 100 53 53 2).w :=
  ⟨((labelBounds_amended.1 800 600 100 100 350 250 0 (by norm_num)
      (by norm_num) (by norm_num) (by norm_num) (by norm_num)
      (by norm_num)).1).2,
   ((labelBounds_amended.1 800 600 100 100 350 250 0 (by norm_num)
      (by norm_num) (by norm_num) (by norm_num) (by norm_num)
      (by norm_num)).2.2.1).1,
   ((labelBounds_amended.2 800 600 100 100 53 53 2 (by norm_num)
      (by norm_num) (by norm_num) (by norm_num) (by norm_num)
      (by norm_num)).1).2,
   ((labelBounds_amended.2 800 600 100 100 53 53 2 (by norm_num)
      (by norm_num) (by norm_num) (by norm_num) (by norm_num)
      (by norm_num)).2.2.1).1⟩

/-- C9: denormalizing a normalized polygon-json box with the same image
dimensions reproduces the original min/max corners exactly (rational
arithmetic is exact, so in particular within the 1e-4 tolerance), and the
label emitted for a kept shape is precisely the normalization of the
axis-aligned min/max corners of its polygon points. -/
theorem polygonRoundTrip_thm :
    ∀ (imgW imgH xmin ymin xmax ymax : Rat) (cid : Int),
      imgW ≠ 0 → imgH ≠ 0 →
      denormBox imgW imgH (normalizeLabel cid imgW imgH xmin ymin xmax ymax) =
        (xmin, ymin, xmax, ymax) ∧
      |(denormBox imgW imgH
          (normalizeLabel cid imgW imgH xmin ymin xmax ymax)).1 - xmin|
        ≤ 1/10000 ∧
      |(denormBox imgW imgH
          (normalizeLabel cid imgW imgH xmin ymin xmax ymax)).2.1 - ymin|
        ≤ 1/10000 ∧
      |(denormBox imgW imgH
          (normalizeLabel cid imgW imgH xmin ymin xmax ymax)).2.2.1 - xmax|
        ≤ 1/10000 ∧
      |(denormBox imgW imgH
          (normalizeLabel cid imgW imgH xmin ymin xmax ymax)).2.2.2 - ymax|
        ≤ 1/10000 ∧
      (∀ (cm : ClassMap) (s : Shape),
        cm.lookup (pyStrip s.label) = some cid →
        shapeStep cm imgH imgW s =
          some (normalizeLabel cid imgW imgH (ptsXmin s.points)
            (ptsYmin s.points) (ptsXmax s.points) (ptsYmax s.points))) := by
  intro imgW imgH xmin ymin xmax ymax cid hW0 hH0
  have heq : denormBox imgW imgH
      (normalizeLabel cid imgW imgH xmin ymin xmax ymax) =
      (xmin, ymin, xmax, ymax) := by
    simp only [denormBox, normalizeLabel, Prod.mk.injEq]
    refine ⟨?_, ?_, ?_, ?_⟩ <;> (field_simp; ring)
  refine ⟨heq, ?_, ?_, ?_, ?_, ?_⟩
  · rw [heq]; norm_num
  · rw [heq]; norm_num
  · rw [heq]; norm_num
  · rw [heq]; norm_num
  · intro cm s h
    simp [shapeStep, h]

/-- C9, witness: a 100x200 box at (10, 20) in an 800x600 image, emitted for
a shape whose label " cat " strips to a mapped class. -/
theorem polygonRoundTrip_thm_wit :
    denormBox 800 600 (normalizeLabel 0 800 600 10 20 110 220) =
      (10, 20, 110, 220) ∧
    shapeStep [("cat", 0)] 600 800
      { label := " cat ", points := [(10, 20), (110, 220)] } =
      some (normalizeLabel 0 800 600
        (ptsXmin [(10, 20), (110, 220)]) (ptsYmin [(10, 20), (110, 220)])
        (ptsXmax [(10, 20), (110, 220)]) (ptsYmax [(10, 20), (110, 220)])) :=
  ⟨(polygonRoundTrip_thm 800 600 10 20 110 220 0 (by norm_num)
      (by norm_num)).1,
   (polygonRoundTrip_thm 800 600 10 20 110 220 0 (by norm_num)
      (by norm_num)).2.2.2.2.2 [("cat", 0)]
     { label := " cat ", points := [(10, 20), (110, 220)] } (by decide)⟩

/-- Picking the element at a valid index and erasing it permutes the
list. -/
theorem get_cons_eraseIdx_perm {α : Type} :
    ∀ (l : List α) (j : Fin l.length), (l.get j :: l.eraseIdx j).Perm l
  | x :: xs, ⟨0, _⟩ => by simp [List.eraseIdx]
  | x :: xs, ⟨k+1, hk⟩ => by
      have ih := get_cons_eraseIdx_perm xs ⟨k, Nat.lt_of_succ_lt_succ hk⟩
      simp only [List.get, List.eraseIdx]
      exact (List.Perm.swap x (xs.get ⟨k, Nat.lt_of_succ_lt_succ hk⟩) _).trans
        (ih.cons x)

/-- The seeded shuffle permutes its input. -/
theorem seededShuffle_perm {α : Type} :
    ∀ (n : Nat) (s : Nat) (l : List α), l.length ≤ n →
      (seededShuffle s l).Perm l
  | _, _, [], _ => by simp [seededShuffle]
  | 0, _, _ :: _, h => by simp at h
  | n+1, s, x :: xs, h => by
      rw [seededShuffle]
      have hj : lcg s % (x :: xs).length < (x :: xs).length :=
        Nat.mod_lt _ (Nat.succ_pos _)
      have hlen : ((x :: xs).eraseIdx (lcg s % (x :: xs).length)).length ≤ n := by
        rw [List.length_eraseIdx]
        simp only [hj, if_pos]
        simp at h ⊢
        omega
      exact ((seededShuffle_perm n (lcg s) _ hlen).cons _).trans
        (get_cons_eraseIdx_perm (x :: xs) ⟨_, hj⟩)

/-- C8: the splitter partitions the input file list: every input file lands
in exactly one of the two outputs (exhaustive, and disjoint when the input
has no duplicates), the validation share is within one unit of rounding of
the configured fraction, and the function is deterministic in
(files, fraction, seed). -/
theorem splitPartition_thm {α : Type} :
    ∀ (seed : Nat) (valFrac : Rat) (files : List α),
      files.Nodup → 0 ≤ valFrac → valFrac ≤ 1 →
      (∀ f : α, f ∈ files ↔
        f ∈ (splitFiles seed valFrac files).1 ∨
        f ∈ (splitFiles seed valFrac files).2) ∧
      (∀ f : α, ¬ (f ∈ (splitFiles seed valFrac files).1 ∧
        f ∈ (splitFiles seed valFrac files).2)) ∧
      (valFrac * (files.length : Rat) ≤
          ((splitFiles seed valFrac files).2.length : Rat) ∧
        ((splitFiles seed valFrac files).2.length : Rat) <
          valFrac * (files.length : Rat) + 1) ∧
      splitFiles seed valFrac files = splitFiles seed valFrac files := by
  intro seed vf files hnd h0 h1
  have hperm : (seededShuffle seed files).Perm files :=
    seededShuffle_perm files.length seed files le_rfl
  have hc0 : (0:Int) ≤ ⌈vf * (files.length : Rat)⌉ :=
    Int.ceil_nonneg (mul_nonneg h0 (by positivity))
  have hcn : ⌈vf * (files.length : Rat)⌉ ≤ (files.length : Int) := by
    rw [Int.ceil_le]
    push_cast
    nlinarith [Nat.cast_nonneg (α := Rat) files.length]
  have hnle : (⌈vf * (files.length : Rat)⌉).toNat ≤ files.length :=
    Int.toNat_le.2 hcn
  have hlen : (seededShuffle seed files).length = files.length :=
    hperm.length_eq
  have hval_len : (splitFiles seed vf files).2.length =
      (⌈vf * (files.length : Rat)⌉).toNat := by
    show ((seededShuffle seed files).take _).length = _
    rw [List.length_take, hlen]
    exact min_eq_left hnle
  have hcast : (((⌈vf * (files.length : Rat)⌉).toNat : Int) : Rat) =
      ((⌈vf * (files.length : Rat)⌉ : Int) : Rat) := by
    rw [Int.toNat_of_nonneg hc0]
  refine ⟨?_, ?_, ⟨?_, ?_⟩, rfl⟩
  · intro f
    constructor
    · intro hf
      have hmem : f ∈ seededShuffle seed files := hperm.mem_iff.2 hf
      rw [← List.take_append_drop (⌈vf * (files.length : Rat)⌉).toNat
        (seededShuffle seed files)] at hmem
      rcases List.mem_append.1 hmem with h | h
      · exact Or.inr h
      · exact Or.inl h
    · rintro (h | h)
      · exact hperm.mem_iff.1 (List.drop_subset _ _ h)
      · exact hperm.mem_iff.1 (List.take_subset _ _ h)
  · rintro f ⟨hdrop, htake⟩
    have hsnd : (seededShuffle seed files).Nodup := hnd.perm hperm.symm
    exact List.disjoint_take_drop hsnd le_rfl htake hdrop
  · rw [hval_len]
    calc vf * (files.length : Rat)
        ≤ ((⌈vf * (files.length : Rat)⌉ : Int) : Rat) := Int.le_ceil _
      _ = (((⌈vf * (files.length : Rat)⌉).toNat : Int) : Rat) := hcast.symm
      _ = (((⌈vf * (files.length : Rat)⌉).toNat : Nat) : Rat) := by push_cast; ring
  · rw [hval_len]
    calc (((⌈vf * (files.length : Rat)⌉).toNat : Nat) : Rat)
        = (((⌈vf * (files.length : Rat)⌉).toNat : Int) : Rat) := by push_cast; ring
      _ = ((⌈vf * (files.length : Rat)⌉ : Int) : Rat) := hcast
      _ < vf * (files.length : Rat) + 1 := Int.ceil_lt_add_one _

/-- C8, witness: five distinct files at fraction 2/5 with seed 1. -/
theorem splitPartition_thm_wit :
    (∀ f : Nat, f ∈ [0, 1, 2, 3, 4] ↔
      f ∈ (splitFiles 1 (2/5) [0, 1, 2, 3, 4]).1 ∨
      f ∈ (splitFiles 1 (2/5) [0, 1, 2, 3, 4]).2) ∧
    (∀ f : Nat, ¬ (f ∈ (splitFiles 1 (2/5) [0, 1, 2, 3, 4]).1 ∧
      f ∈ (splitFiles 1 (2/5) [0, 1, 2, 3, 4]).2)) ∧
    ((2:Rat)/5 * (([0, 1, 2, 3, 4] : List Nat).length : Rat) ≤
        (((splitFiles 1 (2/5) [0, 1, 2, 3, 4]).2.length : Nat) : Rat) ∧
      (((splitFiles 1 (2/5) [0, 1, 2, 3, 4]).2.length : Nat) : Rat) <
        (2:Rat)/5 * (([0, 1, 2, 3, 4] : List Nat).length : Rat) + 1) ∧
    splitFiles 1 (2/5) [0, 1, 2, 3, 4] = splitFiles 1 (2/5) [0, 1, 2, 3, 4] :=
  splitPartition_thm 1 (2/5) [0, 1, 2, 3, 4] (by decide) (by norm_num)
    (by norm_num)
